import Mathlib

/-!
Verification of the metaspace chunk-allocation-sequence policy and the
space-manager (arena allocator) of this repository, shallowly embedded in
Lean 4. The embedding follows src/src/hotspot/share/memory/metaspace/
chunkAllocSequence.{hpp,cpp} and spaceManager.cpp. Headers that the
repository sample does not include (chunkLevel.hpp, metaspaceEnums.hpp,
spaceManager.hpp, and the bodies of SpaceManager::allocate/deallocate) are
modelled from the specification, as marked in the individual doc comments.
-/

namespace metaspace

/-- Chunk level identifier, `chklvl_t` in the source: an ordinal naming a
block size class. Modelled from the spec: chunkLevel.hpp is not part of the
repository sample; the spec describes a binary-buddy ladder in which each
level is half the size of the previous one and larger blocks carry
numerically smaller identifiers. -/
abbrev chklvl_t := Nat

namespace chklvl

/-- Modelled from the spec: the root (largest) chunk level, 4M bytes. -/
def CHUNK_LEVEL_4M : chklvl_t := 0

/-- Modelled from the spec: 2M chunk level. -/
def CHUNK_LEVEL_2M : chklvl_t := 1

/-- Modelled from the spec: 1M chunk level. -/
def CHUNK_LEVEL_1M : chklvl_t := 2

/-- Modelled from the spec: 512K chunk level. -/
def CHUNK_LEVEL_512K : chklvl_t := 3

/-- Modelled from the spec: 256K chunk level. -/
def CHUNK_LEVEL_256K : chklvl_t := 4

/-- Modelled from the spec: 128K chunk level. -/
def CHUNK_LEVEL_128K : chklvl_t := 5

/-- Modelled from the spec: 64K chunk level. -/
def CHUNK_LEVEL_64K : chklvl_t := 6

/-- Modelled from the spec: 32K chunk level. -/
def CHUNK_LEVEL_32K : chklvl_t := 7

/-- Modelled from the spec: 16K chunk level. -/
def CHUNK_LEVEL_16K : chklvl_t := 8

/-- Modelled from the spec: 8K chunk level. -/
def CHUNK_LEVEL_8K : chklvl_t := 9

/-- Modelled from the spec: 4K chunk level. -/
def CHUNK_LEVEL_4K : chklvl_t := 10

/-- Modelled from the spec: 2K chunk level. -/
def CHUNK_LEVEL_2K : chklvl_t := 11

/-- Modelled from the spec: the smallest chunk level, 1K bytes. -/
def CHUNK_LEVEL_1K : chklvl_t := 12

/-- Modelled from the spec: number of levels in the size-class ladder. -/
def NUM_CHUNK_LEVELS : Nat := 13

/-- Modelled from the spec: word capacity of the largest (4M byte) chunk,
with 8 bytes per word. -/
def MAX_CHUNK_WORD_SIZE : Nat := 524288

/-- Modelled from the spec: the word capacity of a chunk of level `l`; each
level down the ladder halves the size (binary buddy). -/
def word_size (l : chklvl_t) : Nat := MAX_CHUNK_WORD_SIZE / 2 ^ l

end chklvl

/-- A chunk allocation sequence encoded by a constant array, as class
`ConstantChunkAllocSequence` in chunkAllocSequence.cpp. The C++ object holds
a pointer `_entries` and a count `_num_entries`; the pair is embedded as the
list of the `_num_entries` array elements. -/
structure ConstantChunkAllocSequence where
  entries : List chklvl_t
deriving DecidableEq

/-- The `_num_entries` field of `ConstantChunkAllocSequence`. -/
def ConstantChunkAllocSequence.num_entries (s : ConstantChunkAllocSequence) : Nat :=
  s.entries.length

/-- The array index that `ConstantChunkAllocSequence::get_next_chunk_level`
reads: `_num_entries - 1` when `num_allocated >= _num_entries` (repeat the
last allocation), else `num_allocated` itself. -/
def ConstantChunkAllocSequence.read_index (s : ConstantChunkAllocSequence)
    (num_allocated : Nat) : Nat :=
  if num_allocated ≥ s.num_entries then s.num_entries - 1 else num_allocated

/-- `ConstantChunkAllocSequence::get_next_chunk_level` from
chunkAllocSequence.cpp: the entry at `read_index`. The C++ raw array read is
embedded with `List.getD` (default 0); in-bounds access is proved separately. -/
def ConstantChunkAllocSequence.get_next_chunk_level (s : ConstantChunkAllocSequence)
    (num_allocated : Nat) : chklvl_t :=
  s.entries.getD (s.read_index num_allocated) 0

/-- Table `g_sequ_standard_non_class` from chunkAllocSequence.cpp. -/
def g_sequ_standard_non_class : List chklvl_t :=
  [chklvl.CHUNK_LEVEL_4K, chklvl.CHUNK_LEVEL_4K, chklvl.CHUNK_LEVEL_4K,
   chklvl.CHUNK_LEVEL_4K, chklvl.CHUNK_LEVEL_16K]

/-- Table `g_sequ_standard_class` from chunkAllocSequence.cpp. -/
def g_sequ_standard_class : List chklvl_t :=
  [chklvl.CHUNK_LEVEL_2K, chklvl.CHUNK_LEVEL_2K, chklvl.CHUNK_LEVEL_2K,
   chklvl.CHUNK_LEVEL_2K, chklvl.CHUNK_LEVEL_16K]

/-- Table `g_sequ_anon_non_class` from chunkAllocSequence.cpp. -/
def g_sequ_anon_non_class : List chklvl_t := [chklvl.CHUNK_LEVEL_1K]

/-- Table `g_sequ_anon_class` from chunkAllocSequence.cpp. -/
def g_sequ_anon_class : List chklvl_t := [chklvl.CHUNK_LEVEL_1K]

/-- Table `g_sequ_refl_non_class` from chunkAllocSequence.cpp. -/
def g_sequ_refl_non_class : List chklvl_t :=
  [chklvl.CHUNK_LEVEL_2K, chklvl.CHUNK_LEVEL_1K]

/-- Table `g_sequ_refl_class` from chunkAllocSequence.cpp. -/
def g_sequ_refl_class : List chklvl_t := [chklvl.CHUNK_LEVEL_1K]

/-- Table `g_sequ_boot_non_class` from chunkAllocSequence.cpp. -/
def g_sequ_boot_non_class : List chklvl_t :=
  [chklvl.CHUNK_LEVEL_4M, chklvl.CHUNK_LEVEL_1M]

/-- Table `g_sequ_boot_class` from chunkAllocSequence.cpp. -/
def g_sequ_boot_class : List chklvl_t :=
  [chklvl.CHUNK_LEVEL_1M, chklvl.CHUNK_LEVEL_256K]

/-- The identities of the eight static `ConstantChunkAllocSequence` objects
created by `DEFINE_CLASS_FOR_ARRAY` in chunkAllocSequence.cpp. The selector
returns a pointer to one of these static objects, so pointer identity is
embedded as equality of these identifiers. -/
inductive SequId
  | standard_non_class
  | standard_class
  | anon_non_class
  | anon_class
  | refl_non_class
  | refl_class
  | boot_non_class
  | boot_class
deriving DecidableEq

/-- The static object `g_chunk_alloc_sequence_<id>` each identifier denotes,
with its table, as built by `DEFINE_CLASS_FOR_ARRAY`. -/
def g_chunk_alloc_sequence : SequId → ConstantChunkAllocSequence
  | .standard_non_class => ⟨g_sequ_standard_non_class⟩
  | .standard_class => ⟨g_sequ_standard_class⟩
  | .anon_non_class => ⟨g_sequ_anon_non_class⟩
  | .anon_class => ⟨g_sequ_anon_class⟩
  | .refl_non_class => ⟨g_sequ_refl_non_class⟩
  | .refl_class => ⟨g_sequ_refl_class⟩
  | .boot_non_class => ⟨g_sequ_boot_non_class⟩
  | .boot_class => ⟨g_sequ_boot_class⟩

/-- `MetaspaceType`: modelled from the spec and the selector's switch.
metaspaceEnums.hpp is not part of the repository sample; a C++ enum is an
integer type, so the type is embedded as `Nat` with one distinct constant
per recognized enumerator (the concrete values are immaterial, only their
distinctness is used). -/
abbrev MetaspaceType := Nat

/-- Modelled from the spec: the `StandardMetaspaceType` enumerator. -/
def StandardMetaspaceType : MetaspaceType := 0

/-- Modelled from the spec: the `BootMetaspaceType` enumerator. -/
def BootMetaspaceType : MetaspaceType := 1

/-- Modelled from the spec: the `UnsafeAnonymousMetaspaceType` enumerator. -/
def UnsafeAnonymousMetaspaceType : MetaspaceType := 2

/-- Modelled from the spec: the `ReflectionMetaspaceType` enumerator. -/
def ReflectionMetaspaceType : MetaspaceType := 3

/-- The fatal outcome of `ShouldNotReachHere()` in HotSpot: a programming
contract violation that aborts the process rather than returning. -/
inductive FatalError
  | ShouldNotReachHere
deriving DecidableEq

/-- `ChunkAllocSequence::alloc_sequence_by_space_type` from
chunkAllocSequence.cpp: two switches over the space type, one per value of
`is_class`; every recognized case returns a pointer to a static sequence
object and the default case is `ShouldNotReachHere()`, embedded as a fatal
error value. Note the `is_class` switch returns the boot NON-class object
for `BootMetaspaceType`, exactly as the source does. -/
def alloc_sequence_by_space_type (space_type : MetaspaceType) (is_class : Bool) :
    Except FatalError SequId :=
  if is_class then
    if space_type = StandardMetaspaceType then .ok .standard_class
    else if space_type = ReflectionMetaspaceType then .ok .refl_class
    else if space_type = UnsafeAnonymousMetaspaceType then .ok .anon_class
    else if space_type = BootMetaspaceType then .ok .boot_non_class
    else .error .ShouldNotReachHere
  else
    if space_type = StandardMetaspaceType then .ok .standard_non_class
    else if space_type = ReflectionMetaspaceType then .ok .refl_non_class
    else if space_type = UnsafeAnonymousMetaspaceType then .ok .anon_non_class
    else if space_type = BootMetaspaceType then .ok .boot_non_class
    else .error .ShouldNotReachHere

/-- The level the selected sequence yields at a given call index: the
composition of `alloc_sequence_by_space_type` with
`get_next_chunk_level`, propagating the fatal default case. -/
def selected_next_chunk_level (space_type : MetaspaceType) (is_class : Bool)
    (num_allocated : Nat) : Except FatalError chklvl_t :=
  (alloc_sequence_by_space_type space_type is_class).map
    (fun id => (g_chunk_alloc_sequence id).get_next_chunk_level num_allocated)

/-- The `SpaceManager` fields initialized by the constructor in
spaceManager.cpp. The three constructor-argument pointers (`Mutex*`,
`ChunkManager*`, and the static `ChunkAllocSequence*`) are embedded as
opaque handles: `Nat` identities for the lock and the chunk manager, and a
`SequId` for the pointer to one of the eight static sequence objects. The
nullable chunk and free-list pointers are `Option` handles. The
`_num_chunks_by_type` array (one counter per chunk level; its dimension
comes from the missing chunkLevel.hpp, modelled from the spec) is a list of
per-level counts. -/
structure SpaceManager where
  lock : Nat
  chunk_manager : Nat
  chunk_alloc_sequence : SequId
  first_chunk : Option Nat
  current_chunk : Option Nat
  block_freelist : Option Nat
  overhead_words : Nat
  capacity_words : Nat
  used_words : Nat
  num_chunks_by_type : List Nat

/-- `SpaceManager::SpaceManager` from spaceManager.cpp: stores the three
constructor arguments, null-initializes `_first_chunk`, `_current_chunk`
and `_block_freelist`, zeroes `_overhead_words`, `_capacity_words` and
`_used_words`, and value-initializes `_num_chunks_by_type` to all zeros
(`{}`); the constructor body is empty, so no chunk is requested from the
chunk manager. -/
def SpaceManager.construct (chunk_manager : Nat) (alloc_sequence : SequId)
    (lock : Nat) : SpaceManager :=
  { lock := lock
    chunk_manager := chunk_manager
    chunk_alloc_sequence := alloc_sequence
    first_chunk := none
    current_chunk := none
    block_freelist := none
    overhead_words := 0
    capacity_words := 0
    used_words := 0
    num_chunks_by_type := List.replicate chklvl.NUM_CHUNK_LEVELS 0 }

/-- Modelled from the spec: the platform minimum allocation granularity, in
words, that `allocate` rounds every request up to (spaceManager.hpp and the
allocate body are missing from the repository sample). -/
def allocation_alignment_words : Nat := 2

/-- Modelled from the spec: round a requested word count up to the
allocation granularity. -/
def align_up_allocation (word_count : Nat) : Nat :=
  ((word_count + allocation_alignment_words - 1) / allocation_alignment_words) *
    allocation_alignment_words

/-- Modelled from the spec: the fixed per-block overhead in words (block
header and alignment waste), accounted to `overhead_words` when a chunk is
granted. -/
def chunk_header_words : Nat := 8

/-- Modelled from the spec: the carvable word capacity of a chunk of level
`l` net of the fixed per-block overhead. -/
def chunk_net_capacity (l : chklvl_t) : Nat :=
  chklvl.word_size l - chunk_header_words

/-- Modelled from the spec: the minimum useful size of a free-list record;
a leftover tail below this size is not re-inserted after a split. -/
def min_useful_free_block_words : Nat := 2

/-- Modelled from the spec: the level ladder ordered from smallest block to
largest, searched when the policy-suggested level cannot hold a request. -/
def levels_smallest_first : List chklvl_t :=
  (List.range chklvl.NUM_CHUNK_LEVELS).reverse

/-- Modelled from the spec: the smallest level in the ladder whose net
capacity can hold `word_count` words, if any. -/
def level_fitting_word_size (word_count : Nat) : Option chklvl_t :=
  levels_smallest_first.find? (fun l => word_count ≤ chunk_net_capacity l)

/-- Modelled from the spec: remove the first free-list record whose size can
satisfy the (already aligned) request, returning it and the remaining list. -/
def take_from_free_list : List Nat → Nat → Option (Nat × List Nat)
  | [], _ => none
  | r :: rest, n =>
    if n ≤ r then some (r, rest)
    else
      match take_from_free_list rest n with
      | some (r2, rest2) => some (r2, r :: rest2)
      | none => none

/-- Result of an arena `allocate` call: success, or the OutOfMemory failure
surfaced when the chunk manager cannot supply a chunk (or no ladder level
can hold the request). -/
inductive AllocResult
  | ok
  | outOfMemory
deriving DecidableEq

/-- Modelled from the spec: the observable accounting state of one arena
allocator. `free_list` records the sizes of freed records available for
reuse; `current_remaining` is the carvable space left in the current chunk
(zero while no chunk is held); `num_allocated` is the count of chunks
granted so far, fed to the allocation sequence as the call index. -/
structure ArenaState where
  capacity_words : Nat
  used_words : Nat
  overhead_words : Nat
  free_list : List Nat
  current_remaining : Nat
  num_allocated : Nat

/-- The arena state right after `SpaceManager::SpaceManager`: everything
zeroed and empty. -/
def ArenaState.initial : ArenaState :=
  { capacity_words := 0
    used_words := 0
    overhead_words := 0
    free_list := []
    current_remaining := 0
    num_allocated := 0 }

/-- Modelled from the spec: `allocate(word_count)`. Rounds the request up to
the allocation granularity; serves from the free-list when a large-enough
freed record exists (re-inserting a leftover tail above the minimum useful
size); otherwise carves from the current chunk when it has enough remaining
space; otherwise asks the allocation sequence for the next level, escalating
to the smallest level that can hold the request when the suggested level
cannot, and requests a chunk of that level from the chunk manager
(`pool_has_chunk` says whether the shared pool can supply one). On pool
exhaustion, or when no ladder level can hold the request, fails with
OutOfMemory and leaves the state unchanged. On success the chunk's net
capacity is added to `capacity_words`, the fixed overhead to
`overhead_words`, and the carve is retried from the new chunk. -/
def allocate (seq : ConstantChunkAllocSequence) (s : ArenaState)
    (word_count : Nat) (pool_has_chunk : Bool) : AllocResult × ArenaState :=
  let n := align_up_allocation word_count
  match take_from_free_list s.free_list n with
  | some (r, rest) =>
    let leftover := r - n
    let fl := if min_useful_free_block_words ≤ leftover then leftover :: rest else rest
    (.ok, { s with free_list := fl, used_words := s.used_words + n })
  | none =>
    if n ≤ s.current_remaining then
      (.ok, { s with current_remaining := s.current_remaining - n,
                     used_words := s.used_words + n })
    else
      let policy_level := seq.get_next_chunk_level s.num_allocated
      let chosen : Option chklvl_t :=
        if n ≤ chunk_net_capacity policy_level then some policy_level
        else level_fitting_word_size n
      match chosen with
      | none => (.outOfMemory, s)
      | some l =>
        if pool_has_chunk then
          let net := chunk_net_capacity l
          (.ok, { capacity_words := s.capacity_words + net
                  used_words := s.used_words + n
                  overhead_words := s.overhead_words + chunk_header_words
                  free_list := s.free_list
                  current_remaining := net - n
                  num_allocated := s.num_allocated + 1 })
        else (.outOfMemory, s)

/-- Modelled from the spec: `deallocate(address, word_count)` inserts the
freed span into the free-list and decrements `used_words`; memory is never
returned to the chunk manager. -/
def deallocate (s : ArenaState) (word_count : Nat) : ArenaState :=
  let n := align_up_allocation word_count
  { s with free_list := n :: s.free_list, used_words := s.used_words - n }

/-- The observable points of an arena's lifetime: the state after
construction and after each `allocate` or `deallocate`. A `deallocate` step
carries the contract precondition that the freed span was previously
allocated from this arena (spec: anything else is undefined-contract
misuse), used here only through the consequence that the span's aligned
size is covered by `used_words`. -/
inductive Reachable (seq : ConstantChunkAllocSequence) : ArenaState → Prop
  | construct : Reachable seq ArenaState.initial
  | alloc (s : ArenaState) (word_count : Nat) (pool_has_chunk : Bool) :
      Reachable seq s → Reachable seq (allocate seq s word_count pool_has_chunk).2
  | dealloc (s : ArenaState) (word_count : Nat)
      (hvalid : align_up_allocation word_count ≤ s.used_words) :
      Reachable seq s → Reachable seq (deallocate s word_count)

/-- The accounting invariant of an arena: the live words, the carvable
remainder of the current chunk and all freed records together never exceed
the accounted capacity. -/
def ArenaInv (s : ArenaState) : Prop :=
  s.used_words + s.current_remaining + s.free_list.sum ≤ s.capacity_words

/-- Helper: a record removed from the free-list satisfies the request and
the list's total only shrinks by that record. -/
theorem take_from_free_list_sum (n : Nat) (fl : List Nat) (r : Nat)
    (rest : List Nat) (h : take_from_free_list fl n = some (r, rest)) :
    n ≤ r ∧ fl.sum = r + rest.sum := by
  induction fl generalizing r rest with
  | nil => simp [take_from_free_list] at h
  | cons a tl ih =>
    simp only [take_from_free_list] at h
    split at h
    · rename_i hle
      simp only [Option.some.injEq, Prod.mk.injEq] at h
      obtain ⟨rfl, rfl⟩ := h
      exact ⟨hle, by simp [List.sum_cons]⟩
    · rename_i hgt
      split at h
      · rename_i r2 rest2 heq
        simp only [Option.some.injEq, Prod.mk.injEq] at h
        obtain ⟨rfl, rfl⟩ := h
        obtain ⟨h1, h2⟩ := ih r2 rest2 heq
        refine ⟨h1, ?_⟩
        simp [List.sum_cons, h2]
        omega
      · exact absurd h (by simp)

/-- Helper: a level found by `level_fitting_word_size` can hold the request. -/
theorem level_fitting_word_size_holds (n : Nat) (l : chklvl_t)
    (h : level_fitting_word_size n = some l) : n ≤ chunk_net_capacity l := by
  unfold level_fitting_word_size at h
  have hp := List.find?_some h
  exact of_decide_eq_true hp

/-- Helper: past the table's length, `get_next_chunk_level` reads the last
entry. -/
theorem get_next_chunk_level_tail (s : ConstantChunkAllocSequence) (i : Nat)
    (h : s.num_entries ≤ i) :
    s.get_next_chunk_level i = s.entries.getD (s.num_entries - 1) 0 := by
  unfold ConstantChunkAllocSequence.get_next_chunk_level
    ConstantChunkAllocSequence.read_index
  rw [if_pos h]

/-- Helper: every entry of an all-zero counter list reads as zero. -/
theorem getD_replicate_zero (m i : Nat) :
    (List.replicate m (0 : Nat)).getD i 0 = 0 := by
  induction m generalizing i with
  | zero => simp [List.getD]
  | succ k ih =>
    cases i with
    | zero => simp [List.replicate, List.getD]
    | succ j => simp [List.replicate, List.getD]

/-- Helper: `allocate` preserves the accounting invariant, on both its
success and its OutOfMemory outcomes. -/
theorem allocate_preserves_inv (seq : ConstantChunkAllocSequence)
    (s : ArenaState) (word_count : Nat) (pool_has_chunk : Bool)
    (h : ArenaInv s) :
    ArenaInv (allocate seq s word_count pool_has_chunk).2 := by
  unfold ArenaInv at h
  rcases heq : take_from_free_list s.free_list (align_up_allocation word_count)
    with _ | ⟨r, rest⟩
  · by_cases hrem : align_up_allocation word_count ≤ s.current_remaining
    · simp only [allocate, heq, if_pos hrem, ArenaInv]
      omega
    · by_cases hpol : align_up_allocation word_count ≤
        chunk_net_capacity (seq.get_next_chunk_level s.num_allocated)
      · cases pool_has_chunk with
        | false => simpa [allocate, heq, if_neg hrem, if_pos hpol, ArenaInv] using h
        | true =>
          simp [allocate, heq, if_neg hrem, if_pos hpol, ArenaInv]
          omega
      · rcases hfit : level_fitting_word_size (align_up_allocation word_count)
          with _ | l
        · simpa [allocate, heq, if_neg hrem, if_neg hpol, hfit, ArenaInv] using h
        · have hl := level_fitting_word_size_holds _ _ hfit
          cases pool_has_chunk with
          | false =>
            simpa [allocate, heq, if_neg hrem, if_neg hpol, hfit, ArenaInv] using h
          | true =>
            simp [allocate, heq, if_neg hrem, if_neg hpol, hfit, ArenaInv]
            omega
  · obtain ⟨hle, hsum⟩ := take_from_free_list_sum _ _ _ _ heq
    by_cases hmin : min_useful_free_block_words ≤ r - align_up_allocation word_count
    · simp only [allocate, heq, if_pos hmin, ArenaInv, List.sum_cons]
      omega
    · simp only [allocate, heq, if_neg hmin, ArenaInv]
      omega

/-- Helper: `deallocate` of a span covered by `used_words` preserves the
accounting invariant. -/
theorem deallocate_preserves_inv (s : ArenaState) (word_count : Nat)
    (h : ArenaInv s) (hv : align_up_allocation word_count ≤ s.used_words) :
    ArenaInv (deallocate s word_count) := by
  simp only [ArenaInv, deallocate, List.sum_cons] at *
  omega

/-- Helper: the accounting invariant holds at every reachable arena state. -/
theorem reachable_arena_inv (seq : ConstantChunkAllocSequence) (s : ArenaState)
    (h : Reachable seq s) : ArenaInv s := by
  induction h with
  | construct => simp [ArenaInv, ArenaState.initial]
  | alloc s wc pool _ ih => exact allocate_preserves_inv seq s wc pool ih
  | dealloc s wc hvalid _ ih => exact deallocate_preserves_inv s wc ih hvalid

/-- C1: for every constant chunk allocation sequence built over a non-empty
table `T` and every call index `i`, `get_next_chunk_level i` returns
`T[min i (len T - 1)]`; in particular, for every `i ≥ len T` it returns the
table's last entry. -/
theorem get_next_chunk_level_min_clamp (T : List chklvl_t) (i : Nat)
    (h : T ≠ []) :
    (ConstantChunkAllocSequence.mk T).get_next_chunk_level i
      = T.getD (min i (T.length - 1)) 0 ∧
    (T.length ≤ i →
      (ConstantChunkAllocSequence.mk T).get_next_chunk_level i = T.getLast h) := by
  have hlen : 0 < T.length := List.length_pos.mpr h
  unfold ConstantChunkAllocSequence.get_next_chunk_level
    ConstantChunkAllocSequence.read_index ConstantChunkAllocSequence.num_entries
  simp only [show (ConstantChunkAllocSequence.mk T).entries = T from rfl]
  by_cases hi : i ≥ T.length
  · rw [if_pos hi]
    have hmin : min i (T.length - 1) = T.length - 1 := by omega
    refine ⟨by rw [hmin], fun _ => ?_⟩
    rw [List.getLast_eq_getElem, List.getD_eq_getElem T 0 (by omega)]
  · rw [if_neg hi]
    have hmin : min i (T.length - 1) = i := by omega
    exact ⟨by rw [hmin], fun hc => absurd hc hi⟩

/-- Witness for C1 at the boot non-class table and call index 7. -/
theorem get_next_chunk_level_min_clamp_witness :
    (ConstantChunkAllocSequence.mk g_sequ_boot_non_class).get_next_chunk_level 7
      = g_sequ_boot_non_class.getD (min 7 (g_sequ_boot_non_class.length - 1)) 0 :=
  (get_next_chunk_level_min_clamp g_sequ_boot_non_class 7 (by decide)).1

/-- C2 counterexample: the sequence the selector returns for the bootstrap
category with the class (secondary) metadata kind does NOT yield the 1M
level at call index 0 — it yields the 4M level, because the selector falls
back to the boot non-class sequence. -/
theorem boot_class_selected_level_counterexample :
    selected_next_chunk_level BootMetaspaceType true 0
      = .ok chklvl.CHUNK_LEVEL_4M ∧
    chklvl.CHUNK_LEVEL_4M ≠ chklvl.CHUNK_LEVEL_1M := by
  exact ⟨rfl, by decide⟩

/-- C2 amended: for the bootstrap category with the class (secondary)
metadata kind, the selector returns the boot NON-class sequence, which
yields the 4M level at call index 0 and the 1M level at call index 1 and at
every later index. -/
theorem boot_class_selected_levels :
    selected_next_chunk_level BootMetaspaceType true 0
      = .ok chklvl.CHUNK_LEVEL_4M ∧
    ∀ i : Nat, selected_next_chunk_level BootMetaspaceType true (i + 1)
      = .ok chklvl.CHUNK_LEVEL_1M := by
  refine ⟨rfl, fun i => ?_⟩
  have hsel : selected_next_chunk_level BootMetaspaceType true (i + 1)
      = .ok ((g_chunk_alloc_sequence SequId.boot_non_class).get_next_chunk_level
          (i + 1)) := rfl
  rw [hsel]
  cases i with
  | zero => rfl
  | succ k =>
    have hne : (g_chunk_alloc_sequence SequId.boot_non_class).num_entries = 2 := rfl
    have h2 : (g_chunk_alloc_sequence SequId.boot_non_class).num_entries
        ≤ k + 1 + 1 := by rw [hne]; omega
    rw [get_next_chunk_level_tail _ _ h2]
    rfl

/-- C3: the selector returns the identical static sequence object for
(BootMetaspaceType, is_class=true) and (BootMetaspaceType, is_class=false):
the boot class-kind lookup falls back to the non-class sequence. -/
theorem boot_selector_class_fallback :
    alloc_sequence_by_space_type BootMetaspaceType true
      = alloc_sequence_by_space_type BootMetaspaceType false ∧
    alloc_sequence_by_space_type BootMetaspaceType true
      = .ok SequId.boot_non_class :=
  ⟨rfl, rfl⟩

/-- C4: for a bootstrap primary (non-class) arena, the selected sequence is
the table [4M, 1M]; call index 0 returns the 4M level (the first entry),
call index 1 returns the second entry (1M), and call index 2 repeats it. -/
theorem boot_non_class_first_three_levels :
    g_sequ_boot_non_class = [chklvl.CHUNK_LEVEL_4M, chklvl.CHUNK_LEVEL_1M] ∧
    selected_next_chunk_level BootMetaspaceType false 0
      = .ok chklvl.CHUNK_LEVEL_4M ∧
    selected_next_chunk_level BootMetaspaceType false 1
      = .ok chklvl.CHUNK_LEVEL_1M ∧
    selected_next_chunk_level BootMetaspaceType false 2
      = .ok chklvl.CHUNK_LEVEL_1M :=
  ⟨rfl, rfl, rfl, rfl⟩

/-- C5: calling the selector with a space type outside the recognized
closed set (Standard, Reflection, UnsafeAnonymous, Boot) hits the switch's
default case, `ShouldNotReachHere()`: a fatal programming-contract
violation for either value of `is_class`, never a normally returned
sequence. -/
theorem alloc_sequence_unrecognized_fatal (t : MetaspaceType) (b : Bool)
    (h1 : t ≠ StandardMetaspaceType) (h2 : t ≠ ReflectionMetaspaceType)
    (h3 : t ≠ UnsafeAnonymousMetaspaceType) (h4 : t ≠ BootMetaspaceType) :
    alloc_sequence_by_space_type t b = .error .ShouldNotReachHere := by
  unfold alloc_sequence_by_space_type
  cases b <;> simp [h1, h2, h3, h4]

/-- Witness for C5 at the unrecognized space type 7. -/
theorem alloc_sequence_unrecognized_fatal_witness :
    (7 : MetaspaceType) ≠ StandardMetaspaceType ∧
    alloc_sequence_by_space_type 7 true = .error .ShouldNotReachHere :=
  ⟨by decide, alloc_sequence_unrecognized_fatal 7 true (by decide) (by decide)
    (by decide) (by decide)⟩

/-- C6: under the constructor's precondition that the table is non-empty
(`_num_entries > 0`), the array index read by `get_next_chunk_level` is
strictly within bounds for every non-negative call index: it is the index
itself when `i < _num_entries` and `_num_entries - 1` otherwise, so the
out-of-bounds access is unreachable. -/
theorem read_index_in_bounds (s : ConstantChunkAllocSequence) (i : Nat)
    (h : 0 < s.num_entries) :
    s.read_index i < s.num_entries ∧
    (i < s.num_entries → s.read_index i = i) ∧
    (s.num_entries ≤ i → s.read_index i = s.num_entries - 1) := by
  unfold ConstantChunkAllocSequence.read_index
  by_cases hi : i ≥ s.num_entries
  · rw [if_pos hi]
    exact ⟨by omega, fun hc => by omega, fun _ => rfl⟩
  · rw [if_neg hi]
    exact ⟨by omega, fun _ => rfl, fun hc => by omega⟩

/-- Witness for C6 at the standard non-class sequence and call index 9. -/
theorem read_index_in_bounds_witness :
    0 < (ConstantChunkAllocSequence.mk g_sequ_standard_non_class).num_entries ∧
    (ConstantChunkAllocSequence.mk g_sequ_standard_non_class).read_index 9
      < (ConstantChunkAllocSequence.mk g_sequ_standard_non_class).num_entries :=
  ⟨by decide,
   (read_index_in_bounds (ConstantChunkAllocSequence.mk g_sequ_standard_non_class)
     9 (by decide)).1⟩

/-- C7: `get_next_chunk_level` is a pure function of the sequence's table
and the call index. In this embedding a call is a function returning only
the level, so it mutates nothing and two calls with equal arguments are
definitionally equal; the substantive content is that the result depends
only on the `_entries` table: two sequence objects with equal tables answer
every call index identically. -/
theorem get_next_chunk_level_pure (s1 s2 : ConstantChunkAllocSequence)
    (n : Nat) (h : s1.entries = s2.entries) :
    s1.get_next_chunk_level n = s2.get_next_chunk_level n := by
  cases s1
  cases s2
  cases h
  rfl

/-- Witness for C7: the two distinct static anonymous-category sequence
objects carry equal tables and answer call index 5 identically. -/
theorem get_next_chunk_level_pure_witness :
    (g_chunk_alloc_sequence SequId.anon_non_class).entries
      = (g_chunk_alloc_sequence SequId.anon_class).entries ∧
    (g_chunk_alloc_sequence SequId.anon_non_class).get_next_chunk_level 5
      = (g_chunk_alloc_sequence SequId.anon_class).get_next_chunk_level 5 :=
  ⟨by decide,
   get_next_chunk_level_pure (g_chunk_alloc_sequence SequId.anon_non_class)
     (g_chunk_alloc_sequence SequId.anon_class) 5 (by decide)⟩

/-- C8: for the ephemeral/anonymous category, for both metadata kinds, the
selected sequence returns the smallest configured level (1K) at every call
index: its table is the one-entry list [1K], repeated forever. -/
theorem anon_selected_always_smallest (b : Bool) (i : Nat) :
    selected_next_chunk_level UnsafeAnonymousMetaspaceType b i
      = .ok chklvl.CHUNK_LEVEL_1K := by
  cases b with
  | false =>
    have hsel : selected_next_chunk_level UnsafeAnonymousMetaspaceType false i
        = .ok ((g_chunk_alloc_sequence SequId.anon_non_class).get_next_chunk_level
            i) := rfl
    rw [hsel]
    cases i with
    | zero => rfl
    | succ k =>
      have hne : (g_chunk_alloc_sequence SequId.anon_non_class).num_entries = 1 := rfl
      have h1 : (g_chunk_alloc_sequence SequId.anon_non_class).num_entries
          ≤ k + 1 := by rw [hne]; omega
      rw [get_next_chunk_level_tail _ _ h1]
      rfl
  | true =>
    have hsel : selected_next_chunk_level UnsafeAnonymousMetaspaceType true i
        = .ok ((g_chunk_alloc_sequence SequId.anon_class).get_next_chunk_level
            i) := rfl
    rw [hsel]
    cases i with
    | zero => rfl
    | succ k =>
      have hne : (g_chunk_alloc_sequence SequId.anon_class).num_entries = 1 := rfl
      have h1 : (g_chunk_alloc_sequence SequId.anon_class).num_entries
          ≤ k + 1 := by rw [hne]; omega
      rw [get_next_chunk_level_tail _ _ h1]
      rfl

/-- C9: immediately after `SpaceManager::SpaceManager`, the first and
current chunk pointers and the block free-list are null, the capacity, used
and overhead counters are zero, every per-level chunk count is zero, and
the stored chunk-manager, alloc-sequence and lock references equal the
constructor arguments; the constructor body is empty, so no chunk was
requested from the chunk manager (allocation is lazy). -/
theorem spaceManager_construct_initial (cm : Nat) (sq : SequId) (lk : Nat) :
    (SpaceManager.construct cm sq lk).first_chunk = none ∧
    (SpaceManager.construct cm sq lk).current_chunk = none ∧
    (SpaceManager.construct cm sq lk).block_freelist = none ∧
    (SpaceManager.construct cm sq lk).capacity_words = 0 ∧
    (SpaceManager.construct cm sq lk).used_words = 0 ∧
    (SpaceManager.construct cm sq lk).overhead_words = 0 ∧
    (∀ l : Nat, (SpaceManager.construct cm sq lk).num_chunks_by_type.getD l 0 = 0) ∧
    (SpaceManager.construct cm sq lk).chunk_manager = cm ∧
    (SpaceManager.construct cm sq lk).chunk_alloc_sequence = sq ∧
    (SpaceManager.construct cm sq lk).lock = lk :=
  ⟨rfl, rfl, rfl, rfl, rfl, rfl,
   fun l => getD_replicate_zero chklvl.NUM_CHUNK_LEVELS l, rfl, rfl, rfl⟩

/-- C10: for every arena allocator, at every observable point of its
lifetime — after construction and after each `allocate` or `deallocate` —
`used_words ≤ capacity_words` holds. -/
theorem arena_used_le_capacity (seq : ConstantChunkAllocSequence)
    (s : ArenaState) (h : Reachable seq s) :
    s.used_words ≤ s.capacity_words := by
  have hinv := reachable_arena_inv seq s h
  unfold ArenaInv at hinv
  omega

/-- Witness for C10: the state reached from construction by one successful
10-word allocation under the anonymous-category sequence. -/
theorem arena_used_le_capacity_witness :
    ((allocate (ConstantChunkAllocSequence.mk g_sequ_anon_non_class)
        ArenaState.initial 10 true).2).used_words ≤
      ((allocate (ConstantChunkAllocSequence.mk g_sequ_anon_non_class)
        ArenaState.initial 10 true).2).capacity_words :=
  arena_used_le_capacity (ConstantChunkAllocSequence.mk g_sequ_anon_non_class)
    ((allocate (ConstantChunkAllocSequence.mk g_sequ_anon_non_class)
        ArenaState.initial 10 true).2)
    (Reachable.alloc ArenaState.initial 10 true Reachable.construct)

end metaspace
